import Mathlib

/-!
Shallow embedding of `discord_logging/__init__.py` (class `DiscordWebhookHandler`).

The handler batches log records and posts them to a Discord webhook.  We model:
  * the mutable sink state (`Handler`): `url`, `interval`, `timeout`,
    `last_emit`, `queue`;
  * the network as an oracle: a list of `Attempt` outcomes, one consumed per
    HTTP POST issued (`netFail` models `requests.ConnectionError` /
    `requests.Timeout`, `server` models a response arriving `delta` seconds
    after the request was sent, with a status code and the
    `x-ratelimit-reset-after` header);
  * instants and durations as an abstract linearly ordered type `T` with an
    addition, a zero and a literal `2` (the Python code uses `time.monotonic()`
    floats, but its control flow only adds durations and compares them, so any
    such `T` — ℤ, ℚ, ℝ — instantiates the model; witnesses use `T := ℤ`);
  * `post_webhook` as a recursive function over the oracle list, returning the
    transmit result (with raised exceptions as values), the trace of
    network-visible actions (POSTs and sleeps), and the final handler state;
  * `emit` and `flush` as state transformers that additionally report the list
    of `post_webhook` payloads passed (`calls`) and, as ghost data, the records
    removed from the queue by a success-reporting flush (`delivered`).

Log records are opaque (`R`); the external `logging.Handler.format` is a
parameter `fmt : R → String`.
-/

namespace DiscordLogging

variable {T : Type} [LinearOrder T] [AddZeroClass T] [OfNat T 2] {R : Type}

/-- Sink state of `DiscordWebhookHandler`: the fields set in `__init__`. -/
structure Handler (T R : Type) where
  url : String
  interval : T
  timeout : T
  last_emit : T
  queue : List R
  deriving DecidableEq

/-- State produced by `__init__(webhook_url, emit_interval, timeout)`:
`last_emit = 0` and an empty queue. -/
def mkHandler (R : Type) (webhook_url : String)
    (emit_interval timeout : T) : Handler T R :=
  ⟨webhook_url, emit_interval, timeout, 0, []⟩

/-- Value of the `x-ratelimit-reset-after` response header: absent, present
and parseable as a float with value `v`, or present but not parseable. -/
inductive RetryAfterHeader (T : Type) where
  | missing : RetryAfterHeader T
  | parseable (v : T) : RetryAfterHeader T
  | unparseable : RetryAfterHeader T
  deriving DecidableEq

/-- Exceptions the Python code can raise out of `post_webhook`/`emit`/`flush`.
`noResponse` is a modelling artifact: the oracle list ran out, i.e. the run
would still be blocked inside `requests.post`. -/
inductive PyError where
  | httpError (status : Nat) : PyError
  | valueError : PyError
  | noResponse : PyError
  deriving DecidableEq

/-- Model of `float(resp.headers.get("x-ratelimit-reset-after", 2))`: the
default `2` is used only when the header is absent; a present but unparseable
value makes `float` raise `ValueError`. -/
def floatOfHeader : RetryAfterHeader T → Except PyError T
  | .missing => .ok 2
  | .parseable v => .ok v
  | .unparseable => .error .valueError

/-- Shape of the request body chosen by `post_webhook`: inline message
(form field `content` wrapped in triple backticks) or file upload
(`files={"file": ("content.log", content.encode())}`). -/
inductive Payload where
  | inline (text : String) : Payload
  | file (name : String) (bytes : String) : Payload
  deriving DecidableEq

/-- Request-shape choice in `post_webhook`: content of length at most 1994 is
sent inline wrapped in triple backticks, longer content as a file. -/
def mkPayload (content : String) : Payload :=
  if content.length ≤ 1994 then .inline ("```" ++ content ++ "```")
  else .file "content.log" content

/-- One network-visible action performed by `post_webhook`. -/
inductive Action (T : Type) where
  | httpPost (delta : T) (url : String) (p : Payload) : Action T
  | sleep (d : T) : Action T
  deriving DecidableEq

/-- Outcome of one `requests.post` call, supplied by the network oracle:
either a connection error / timeout, or a server response arriving `delta`
seconds later with a status code and rate-limit header. -/
inductive Attempt (T : Type) where
  | netFail (delta : T) : Attempt T
  | server (delta : T) (status : Nat) (hdr : RetryAfterHeader T) : Attempt T
  deriving DecidableEq

/-- Result of `post_webhook`: `ok` / `failed` are the boolean return values,
`httpError` and `valueError` are raised exceptions, `blocked` is the modelling
artifact for an exhausted oracle. -/
inductive TransmitResult where
  | ok : TransmitResult
  | failed : TransmitResult
  | httpError (status : Nat) : TransmitResult
  | valueError : TransmitResult
  | blocked : TransmitResult
  deriving DecidableEq

/-- Decision made at the top of each iteration of the
`while resp.status_code != 204` loop: exit returning `True` on 204, raise on
a non-retryable status, otherwise read the advised delay (which itself can
raise) and fail without sleeping if the delay would exceed the budget. -/
inductive Decision (T : Type) where
  | stop (r : TransmitResult) : Decision T
  | retryAfter (d : T) : Decision T
  deriving DecidableEq

/-- Examination of one response by the retry loop of `post_webhook`, given
the elapsed time `monotonic() - start_time` at that moment. -/
def decideResp (timeout elapsed : T) (status : Nat)
    (hdr : RetryAfterHeader T) : Decision T :=
  if status = 204 then .stop .ok
  else if status = 429 ∨ status = 502 then
    match floatOfHeader hdr with
    | .error _ => .stop .valueError
    | .ok d => if elapsed + d > timeout then .stop .failed else .retryAfter d
  else .stop (.httpError status)

/-- The `while resp.status_code != 204` retry loop of `post_webhook`.
`elapsed` is `monotonic() - start_time` at the moment the current response
`status`/`hdr` is examined; `env` supplies the outcomes of further POSTs.
When the decision is to retry, the loop sleeps, re-POSTs the same payload,
and continues on the next response. -/
def retryLoop (h : Handler T R) (p : Payload) :
    T → Nat → RetryAfterHeader T → List (Attempt T) →
      TransmitResult × List (Action T)
  | elapsed, status, hdr, env =>
    match decideResp h.timeout elapsed status hdr, env with
    | .stop r, _ => (r, [])
    | .retryAfter d, [] => (.blocked, [.sleep d])
    | .retryAfter d, .netFail delta :: _ =>
      (.failed, [.sleep d, .httpPost delta h.url p])
    | .retryAfter d, .server delta status2 hdr2 :: rest =>
      let r := retryLoop h p (elapsed + d + delta) status2 hdr2 rest
      (r.1, .sleep d :: .httpPost delta h.url p :: r.2)

/-- Result record of a `post_webhook` call: boolean-or-exception outcome, the
trace of POSTs and sleeps, and the handler state after the call. -/
structure TransmitOut (T R : Type) where
  result : TransmitResult
  actions : List (Action T)
  state : Handler T R
  deriving DecidableEq

/-- Model of `DiscordWebhookHandler.post_webhook(content)`: empty content
trivially succeeds with no network call; otherwise choose the payload shape,
issue the first POST, and run the retry loop.  The method reads `self.url`
and `self.timeout` and assigns no field, so the state out is the state in. -/
def post_webhook (h : Handler T R) (content : String)
    (env : List (Attempt T)) : TransmitOut T R :=
  if content = "" then ⟨.ok, [], h⟩
  else
    let p := mkPayload content
    match env with
    | [] => ⟨.blocked, [], h⟩
    | .netFail delta :: _ => ⟨.failed, [.httpPost delta h.url p], h⟩
    | .server delta status hdr :: rest =>
      let r := retryLoop h p delta status hdr rest
      ⟨r.1, .httpPost delta h.url p :: r.2, h⟩

/-- Joined queue content built by `emit`/`flush`:
`"\n".join(self.format(q) for q in self.queue)`. -/
def queueContent (fmt : R → String) (h : Handler T R) : String :=
  String.intercalate "\n" (h.queue.map fmt)

/-- Result record of an `emit` or `flush` call: the new handler state, the
payloads passed to `post_webhook` (`calls`), the network actions performed,
the records removed from the queue by a success-reporting transmit
(`delivered`, ghost data), and the exception propagated, if any. -/
structure EmitOut (T R : Type) where
  state : Handler T R
  calls : List String
  actions : List (Action T)
  delivered : List R
  err : Option PyError
  deriving DecidableEq

/-- Model of `DiscordWebhookHandler.emit(record)` at monotonic time `now`:
within the interval, append to the queue and return; otherwise post the joined
queue plus the new record, set `last_emit = now`, then clear the queue on
success or append the record on failure.  A raise inside `post_webhook`
propagates before `last_emit` is assigned. -/
def emit (fmt : R → String) (h : Handler T R) (record : R) (now : T)
    (env : List (Attempt T)) : EmitOut T R :=
  if h.last_emit + h.interval > now then
    ⟨{ h with queue := h.queue ++ [record] }, [], [], [], none⟩
  else
    let payload := queueContent fmt h ++ "\n" ++ fmt record
    let t := post_webhook h payload env
    match t.result with
    | .ok =>
      ⟨{ t.state with last_emit := now, queue := [] }, [payload], t.actions,
        t.state.queue ++ [record], none⟩
    | .failed =>
      ⟨{ t.state with last_emit := now, queue := t.state.queue ++ [record] },
        [payload], t.actions, [], none⟩
    | .httpError s => ⟨t.state, [payload], t.actions, [], some (.httpError s)⟩
    | .valueError => ⟨t.state, [payload], t.actions, [], some .valueError⟩
    | .blocked => ⟨t.state, [payload], t.actions, [], some .noResponse⟩

/-- Model of `DiscordWebhookHandler.flush()`: post the joined queue content
and clear the queue if successful.  `last_emit` is not touched. -/
def flush (fmt : R → String) (h : Handler T R) (env : List (Attempt T)) :
    EmitOut T R :=
  let payload := queueContent fmt h
  let t := post_webhook h payload env
  match t.result with
  | .ok => ⟨{ t.state with queue := [] }, [payload], t.actions, t.state.queue, none⟩
  | .failed => ⟨t.state, [payload], t.actions, [], none⟩
  | .httpError s => ⟨t.state, [payload], t.actions, [], some (.httpError s)⟩
  | .valueError => ⟨t.state, [payload], t.actions, [], some .valueError⟩
  | .blocked => ⟨t.state, [payload], t.actions, [], some .noResponse⟩

/-- One host-framework call into the sink: `emit` with a record at a monotonic
time, or `flush`; each carries the network oracle for its duration. -/
inductive Op (T R : Type) where
  | submit (record : R) (now : T) (env : List (Attempt T)) : Op T R
  | force_flush (env : List (Attempt T)) : Op T R
  deriving DecidableEq

/-- Records submitted by a sequence of operations, in order. -/
def submittedOf : List (Op T R) → List R
  | [] => []
  | .submit r _ _ :: rest => r :: submittedOf rest
  | .force_flush _ :: rest => submittedOf rest

/-- Run a sequence of operations, accumulating the ghost `delivered` lists;
stop at the first propagated exception (it escapes the logging call path). -/
def runOps (fmt : R → String) :
    Handler T R → List R → List (Op T R) → Handler T R × List R × Option PyError
  | h, acc, [] => (h, acc, none)
  | h, acc, op :: rest =>
    let out :=
      match op with
      | .submit r now env => emit fmt h r now env
      | .force_flush env => flush fmt h env
    match out.err with
    | some e => (out.state, acc ++ out.delivered, some e)
    | none => runOps fmt out.state (acc ++ out.delivered) rest

/-- Run a list of `emit` calls (record, monotonic time, oracle), accumulating
the transmit calls and network actions. -/
def runEmits (fmt : R → String) :
    Handler T R → List (R × T × List (Attempt T)) →
      Handler T R × List String × List (Action T)
  | h, [] => (h, [], [])
  | h, (r, t, env) :: rest =>
    let out := emit fmt h r t env
    let k := runEmits fmt out.state rest
    (k.1, out.calls ++ k.2.1, out.actions ++ k.2.2)

/-- Cumulative-time check over an action trace: starting from elapsed time
`e`, every sleep completes with total elapsed time within `budget`. -/
def sleepsWithin (budget : T) : T → List (Action T) → Bool
  | _, [] => true
  | e, .sleep d :: rest =>
    decide (e + d ≤ budget) && sleepsWithin budget (e + d) rest
  | e, .httpPost delta _ _ :: rest => sleepsWithin budget (e + delta) rest

/-! ## Helper lemmas -/

/-- The body of `post_webhook` assigns no field of `self`: the handler state
after the call is the handler state before it. -/
theorem post_webhook_state (h : Handler T R) (content : String)
    (env : List (Attempt T)) : (post_webhook h content env).state = h := by
  unfold post_webhook
  split
  · rfl
  · cases env with
    | nil => rfl
    | cons a rest => cases a <;> rfl

/-- When the examination of a response says stop with result `r`, the retry
loop returns `r` with no further action, whatever the oracle still holds. -/
theorem retryLoop_stop (h : Handler T R) (p : Payload) (elapsed : T)
    (status : Nat) (hdr : RetryAfterHeader T) (env : List (Attempt T))
    (r : TransmitResult)
    (hdec : decideResp h.timeout elapsed status hdr = .stop r) :
    retryLoop h p elapsed status hdr env = (r, []) := by
  unfold retryLoop
  rw [hdec]

/-- A status other than 204, 429 and 502 makes the loop raise `HTTPError`. -/
theorem decideResp_fatal (timeout elapsed : T) (status : Nat)
    (hdr : RetryAfterHeader T) (h204 : status ≠ 204) (h429 : status ≠ 429)
    (h502 : status ≠ 502) :
    decideResp timeout elapsed status hdr = .stop (.httpError status) := by
  simp [decideResp, h204, h429, h502]

/-- A retryable status whose advised delay would overrun the budget makes the
loop return `False` without sleeping. -/
theorem decideResp_budget (timeout elapsed : T) (status : Nat)
    (hdr : RetryAfterHeader T) (d : T) (hs : status = 429 ∨ status = 502)
    (hfl : floatOfHeader hdr = Except.ok d) (hb : elapsed + d > timeout) :
    decideResp timeout elapsed status hdr = .stop .failed := by
  have h204 : status ≠ 204 := by rcases hs with h | h <;> simp [h]
  simp [decideResp, h204, hs, hfl, hb]

/-- A retryable status with a parseable (or defaulted) delay that fits the
budget makes the loop sleep for exactly that delay and retry. -/
theorem decideResp_retry (timeout elapsed : T) (status : Nat)
    (hdr : RetryAfterHeader T) (d : T) (hs : status = 429 ∨ status = 502)
    (hfl : floatOfHeader hdr = Except.ok d) (hnb : ¬ elapsed + d > timeout) :
    decideResp timeout elapsed status hdr = .retryAfter d := by
  have h204 : status ≠ 204 := by rcases hs with h | h <;> simp [h]
  simp [decideResp, h204, hs, hfl, hnb]

/-- If the loop decides to sleep for `d`, the budget check passed:
`elapsed + d` does not exceed the timeout. -/
theorem decideResp_retry_le (timeout elapsed : T) (status : Nat)
    (hdr : RetryAfterHeader T) (d : T)
    (hdec : decideResp timeout elapsed status hdr = .retryAfter d) :
    ¬ elapsed + d > timeout := by
  unfold decideResp at hdec
  split at hdec
  · simp at hdec
  · split at hdec
    · cases hdr with
      | missing =>
        simp only [floatOfHeader] at hdec
        split at hdec
        · simp at hdec
        · rename_i hnb
          simp at hdec
          subst hdec
          exact hnb
      | parseable v =>
        simp only [floatOfHeader] at hdec
        split at hdec
        · simp at hdec
        · rename_i hnb
          simp at hdec
          subst hdec
          exact hnb
      | unparseable => simp [floatOfHeader] at hdec
    · simp at hdec

/-- Every sleep the retry loop performs completes within the timeout budget,
counting the elapsed time threaded into the loop. -/
theorem retryLoop_sleeps_bounded (h : Handler T R) (p : Payload)
    (env : List (Attempt T)) :
    ∀ (elapsed : T) (status : Nat) (hdr : RetryAfterHeader T),
      sleepsWithin h.timeout elapsed (retryLoop h p elapsed status hdr env).2 =
        true := by
  induction env with
  | nil =>
    intro elapsed status hdr
    unfold retryLoop
    cases hdec : decideResp h.timeout elapsed status hdr with
    | stop r => simp [sleepsWithin]
    | retryAfter d =>
      have hle : elapsed + d ≤ h.timeout :=
        not_lt.mp (decideResp_retry_le h.timeout elapsed status hdr d hdec)
      simp [sleepsWithin, hle]
  | cons a rest ih =>
    intro elapsed status hdr
    unfold retryLoop
    cases hdec : decideResp h.timeout elapsed status hdr with
    | stop r => simp [sleepsWithin]
    | retryAfter d =>
      have hle : elapsed + d ≤ h.timeout :=
        not_lt.mp (decideResp_retry_le h.timeout elapsed status hdr d hdec)
      cases a with
      | netFail delta => simp [sleepsWithin, hle]
      | server delta status2 hdr2 => simp [sleepsWithin, hle, ih]

/-- Every sleep `post_webhook` performs completes within the timeout budget,
counting request durations and sleeps from the recorded start time. -/
theorem post_webhook_sleeps_bounded (h : Handler T R) (content : String)
    (env : List (Attempt T)) :
    sleepsWithin h.timeout 0 (post_webhook h content env).actions = true := by
  by_cases hc : content = ""
  · simp [post_webhook, hc, sleepsWithin]
  · cases env with
    | nil => simp [post_webhook, hc, sleepsWithin]
    | cons a rest =>
      cases a with
      | netFail delta => simp [post_webhook, hc, sleepsWithin]
      | server delta status hdr =>
        simp only [post_webhook, if_neg hc]
        simp only [sleepsWithin]
        rw [zero_add]
        exact retryLoop_sleeps_bounded h (mkPayload content) rest delta status
          hdr

/-! ## Claims -/

/-- C1: for every sink state and submitted entry, when a flush is attempted
(interval elapsed): if transmit reports success the queue is empty afterwards
regardless of prior size; if transmit reports failure the queue afterwards is
the prior queue with exactly the new entry appended at the end. -/
theorem flush_attempt_queue_outcome (fmt : R → String) (h : Handler T R)
    (record : R) (now : T) (env : List (Attempt T))
    (hnow : ¬ h.last_emit + h.interval > now) :
    ((post_webhook h (queueContent fmt h ++ "\n" ++ fmt record) env).result =
        TransmitResult.ok →
      (emit fmt h record now env).state.queue = []) ∧
    ((post_webhook h (queueContent fmt h ++ "\n" ++ fmt record) env).result =
        TransmitResult.failed →
      (emit fmt h record now env).state.queue = h.queue ++ [record]) := by
  have hst := post_webhook_state h (queueContent fmt h ++ "\n" ++ fmt record) env
  constructor <;> intro hres <;>
    simp [emit, if_neg hnow, hres, hst]

/-- Witness for C1: a success-reporting transmit empties the queue, and a
connection failure leaves exactly the new entry appended. -/
theorem flush_attempt_queue_outcome_witness :
    (emit id (mkHandler String "u" 1 (5:ℤ)) "x" 10
        [Attempt.server 0 204 .missing]).state.queue = [] ∧
    (emit id (mkHandler String "u" 1 (5:ℤ)) "x" 10
        [Attempt.netFail 0]).state.queue = ["x"] :=
  ⟨(flush_attempt_queue_outcome id (mkHandler String "u" 1 (5:ℤ)) "x" 10
      [Attempt.server 0 204 .missing] (by decide)).1 (by decide),
   (flush_attempt_queue_outcome id (mkHandler String "u" 1 (5:ℤ)) "x" 10
      [Attempt.netFail 0] (by decide)).2 (by decide)⟩

/-- C2: a submit performed once the interval has elapsed passes exactly one
payload to transmit, namely the newline-joined formatted queued entries (in
queue order) followed by a newline and the formatted new entry. -/
theorem elapsed_submit_single_transmit_payload (fmt : R → String)
    (h : Handler T R) (record : R) (now : T) (env : List (Attempt T))
    (hnow : ¬ h.last_emit + h.interval > now) :
    (emit fmt h record now env).calls =
      [String.intercalate "\n" (h.queue.map fmt) ++ "\n" ++ fmt record] := by
  cases hres : (post_webhook h (queueContent fmt h ++ "\n" ++ fmt record) env).result <;>
    · simp only [emit, if_neg hnow]
      rw [hres]
      simp [queueContent]

/-- Witness for C2: at time 10 with interval 1 and queue entries `a`, `b`,
emitting `x` issues one transmit call with payload `a\nb\nx`. -/
theorem elapsed_submit_single_transmit_payload_witness :
    (emit id
        { mkHandler String "u" 1 (5:ℤ) with queue := ["a", "b"] } "x" 10
        [Attempt.server 0 204 .missing]).calls = ["a\nb\nx"] :=
  elapsed_submit_single_transmit_payload id
    { mkHandler String "u" 1 (5:ℤ) with queue := ["a", "b"] } "x" 10
    [Attempt.server 0 204 .missing] (by decide)

/-- C9: for every sequence of submits each arriving strictly within
`emit_interval` of the last flush attempt, no transmit call and no network
action occurs, the queue grows by exactly the submitted entries in order, and
`last_emit` (with every other field) is unchanged. -/
theorem intra_interval_submits_append_only (fmt : R → String)
    (h : Handler T R) (l : List (R × T × List (Attempt T)))
    (hall : ∀ x ∈ l, h.last_emit + h.interval > x.2.1) :
    runEmits fmt h l =
      ({ h with queue := h.queue ++ l.map (fun x => x.1) }, [], []) := by
  induction l generalizing h with
  | nil => simp [runEmits]
  | cons x rest ih =>
    obtain ⟨r, t, env⟩ := x
    have hx : h.last_emit + h.interval > t := hall (r, t, env) (List.mem_cons_self _ _)
    have hrest : ∀ y ∈ rest, h.last_emit + h.interval > y.2.1 :=
      fun y hy => hall y (List.mem_cons_of_mem _ hy)
    have ihy := ih { h with queue := h.queue ++ [r] } hrest
    simp [runEmits, emit, if_pos hx, ihy]

/-- Witness for C9: three submits at times 0, 0, 0 with `last_emit = 0` and
interval 1 only append, in order, with no transmit call and no action. -/
theorem intra_interval_submits_append_only_witness :
    runEmits id (mkHandler String "u" 1 (5:ℤ))
        [("a", 0, []), ("b", 0, []), ("c", 0, [])] =
      ({ mkHandler String "u" 1 (5:ℤ) with queue := ["a", "b", "c"] },
        [], []) :=
  intra_interval_submits_append_only id (mkHandler String "u" 1 (5:ℤ))
    [("a", 0, []), ("b", 0, []), ("c", 0, [])] (by decide)

/-- Counterexample to C3: with one queued entry `a`, `flush` transmits the
payload `a`, not the `a\n` that the claimed submit-with-no-entry formula
(join + newline + empty entry text) produces, and it leaves `last_emit`
untouched instead of updating it the way a submit call would. -/
theorem force_flush_equiv_submit_counterexample :
    (flush id { mkHandler String "u" 1 (5:ℤ) with queue := ["a"] }
        [Attempt.server 0 204 .missing]).calls = ["a"] ∧
    String.intercalate "\n" (List.map id ["a"]) ++ "\n" ++ "" = "a\n" ∧
    ("a" : String) ≠ "a\n" ∧
    (flush id { mkHandler String "u" 1 (5:ℤ) with queue := ["a"] }
        [Attempt.server 0 204 .missing]).state.last_emit = 0 :=
  ⟨by decide, by decide, by decide, by decide⟩

/-- C3 amended: `flush` passes exactly one payload to transmit, the
newline-joined queued entries with no trailing newline appended; it never
changes `last_emit` (or `url`, `interval`, `timeout`); it clears the queue
when transmit reports success and leaves it unchanged when transmit reports
failure; and on an empty queue it performs no network action. -/
theorem force_flush_behavior (fmt : R → String) (h : Handler T R)
    (env : List (Attempt T)) :
    (flush fmt h env).calls = [queueContent fmt h] ∧
    (flush fmt h env).state.last_emit = h.last_emit ∧
    (flush fmt h env).state.url = h.url ∧
    (flush fmt h env).state.interval = h.interval ∧
    (flush fmt h env).state.timeout = h.timeout ∧
    ((post_webhook h (queueContent fmt h) env).result = TransmitResult.ok →
      (flush fmt h env).state.queue = []) ∧
    ((post_webhook h (queueContent fmt h) env).result = TransmitResult.failed →
      (flush fmt h env).state.queue = h.queue) ∧
    (h.queue = [] → (flush fmt h env).actions = []) := by
  have hst := post_webhook_state h (queueContent fmt h) env
  refine ⟨?_, ?_, ?_, ?_, ?_, ?_, ?_, ?_⟩
  · cases hres : (post_webhook h (queueContent fmt h) env).result <;>
      simp [flush, hres]
  · cases hres : (post_webhook h (queueContent fmt h) env).result <;>
      simp [flush, hres, hst]
  · cases hres : (post_webhook h (queueContent fmt h) env).result <;>
      simp [flush, hres, hst]
  · cases hres : (post_webhook h (queueContent fmt h) env).result <;>
      simp [flush, hres, hst]
  · cases hres : (post_webhook h (queueContent fmt h) env).result <;>
      simp [flush, hres, hst]
  · intro hres; simp [flush, hres]
  · intro hres; simp [flush, hres, hst]
  · intro hq
    have hqc : queueContent fmt h = "" := by
      unfold queueContent
      rw [hq]
      rfl
    simp [flush, hqc, post_webhook]

/-- Witness for C3 amended: on a queue `[a, b]` with a success-reporting
response the transmitted payload is `a\nb`, `last_emit` stays 0 and the queue
is cleared; on an empty queue no network action occurs. -/
theorem force_flush_behavior_witness :
    (flush id { mkHandler String "u" 1 (5:ℤ) with queue := ["a", "b"] }
        [Attempt.server 0 204 .missing]).calls = ["a\nb"] ∧
    (flush id { mkHandler String "u" 1 (5:ℤ) with queue := ["a", "b"] }
        [Attempt.server 0 204 .missing]).state.last_emit = 0 ∧
    (flush id { mkHandler String "u" 1 (5:ℤ) with queue := ["a", "b"] }
        [Attempt.server 0 204 .missing]).state.queue = [] ∧
    (flush id (mkHandler String "u" 1 (5:ℤ)) []).actions = [] :=
  ⟨(force_flush_behavior id
      { mkHandler String "u" 1 (5:ℤ) with queue := ["a", "b"] }
      [Attempt.server 0 204 .missing]).1,
   (force_flush_behavior id
      { mkHandler String "u" 1 (5:ℤ) with queue := ["a", "b"] }
      [Attempt.server 0 204 .missing]).2.1,
   (force_flush_behavior id
      { mkHandler String "u" 1 (5:ℤ) with queue := ["a", "b"] }
      [Attempt.server 0 204 .missing]).2.2.2.2.2.1 (by decide),
   (force_flush_behavior id (mkHandler String "u" 1 (5:ℤ)) []).2.2.2.2.2.2.2
     (by decide)⟩

/-- C6: for nonempty content, a response whose status is neither the success
status 204 nor retryable (429/502) makes transmit raise an `HTTPError`
carrying that status immediately: no retry POST, no sleep, and the outcome is
not the soft boolean failure. -/
theorem fatal_status_raises_immediately (h : Handler T R) (content : String)
    (hc : content ≠ "") (delta : T) (status : Nat) (hdr : RetryAfterHeader T)
    (env : List (Attempt T)) (h204 : status ≠ 204) (h429 : status ≠ 429)
    (h502 : status ≠ 502) :
    post_webhook h content (Attempt.server delta status hdr :: env) =
      ⟨TransmitResult.httpError status,
        [Action.httpPost delta h.url (mkPayload content)], h⟩ ∧
    (∀ (p : Payload) (elapsed : T),
      retryLoop h p elapsed status hdr env =
        (TransmitResult.httpError status, [])) ∧
    TransmitResult.httpError status ≠ TransmitResult.failed := by
  refine ⟨?_, fun p elapsed => ?_, by simp⟩
  · have hr := retryLoop_stop h (mkPayload content) delta status hdr env _
      (decideResp_fatal h.timeout delta status hdr h204 h429 h502)
    simp [post_webhook, hc, hr]
  · exact retryLoop_stop h p elapsed status hdr env _
      (decideResp_fatal h.timeout elapsed status hdr h204 h429 h502)

/-- Witness for C6: a 404 response raises `HTTPError 404` after the single
original POST, with no retry and no sleep. -/
theorem fatal_status_raises_immediately_witness :
    post_webhook (mkHandler String "u" 1 (5:ℤ)) "x"
        [Attempt.server 0 404 .missing] =
      ⟨TransmitResult.httpError 404,
        [Action.httpPost 0 "u" (mkPayload "x")],
        mkHandler String "u" 1 (5:ℤ)⟩ :=
  (fatal_status_raises_immediately (mkHandler String "u" 1 (5:ℤ)) "x"
    (by decide) 0 404 .missing [] (by decide) (by decide) (by decide)).1

/-- Helper for C8: every POST issued by the retry loop re-sends the payload
shape chosen up front. -/
theorem retryLoop_post_shape (h : Handler T R) (p : Payload)
    (env : List (Attempt T)) :
    ∀ (elapsed : T) (status : Nat) (hdr : RetryAfterHeader T) (delta : T)
      (u : String) (q : Payload),
      Action.httpPost delta u q ∈ (retryLoop h p elapsed status hdr env).2 →
      u = h.url ∧ q = p := by
  induction env with
  | nil =>
    intro elapsed status hdr delta u q hmem
    unfold retryLoop at hmem
    cases hdec : decideResp h.timeout elapsed status hdr with
    | stop r => rw [hdec] at hmem; simp at hmem
    | retryAfter d => rw [hdec] at hmem; simp at hmem
  | cons a rest ih =>
    intro elapsed status hdr delta u q hmem
    unfold retryLoop at hmem
    cases hdec : decideResp h.timeout elapsed status hdr with
    | stop r => rw [hdec] at hmem; simp at hmem
    | retryAfter d =>
      rw [hdec] at hmem
      cases a with
      | netFail delta2 =>
        simp at hmem
        exact ⟨hmem.2.1, hmem.2.2⟩
      | server delta2 status2 hdr2 =>
        simp at hmem
        rcases hmem with ⟨_, hu, hq⟩ | hmem
        · exact ⟨hu, hq⟩
        · exact ih _ _ _ _ _ _ hmem

/-- C8: for nonempty content, every POST transmit issues carries the payload
shape `mkPayload content`: inline text wrapped in a fenced code block when the
length is at most 1994 characters, a `content.log` file attachment when the
length exceeds 1994. -/
theorem transmit_payload_shape (h : Handler T R) (content : String)
    (hc : content ≠ "") (env : List (Attempt T)) :
    (∀ (delta : T) (u : String) (q : Payload),
      Action.httpPost delta u q ∈ (post_webhook h content env).actions →
        q = mkPayload content) ∧
    (content.length ≤ 1994 →
      mkPayload content = Payload.inline ("```" ++ content ++ "```")) ∧
    (1994 < content.length →
      mkPayload content = Payload.file "content.log" content) := by
  refine ⟨?_, fun hle => by simp [mkPayload, hle], fun hgt => ?_⟩
  · intro delta u q hmem
    unfold post_webhook at hmem
    rw [if_neg hc] at hmem
    cases env with
    | nil => simp at hmem
    | cons a rest =>
      cases a with
      | netFail delta2 => simp at hmem; exact hmem.2.2
      | server delta2 status2 hdr2 =>
        simp at hmem
        rcases hmem with ⟨_, _, hq⟩ | hmem
        · exact hq
        · exact (retryLoop_post_shape h (mkPayload content) rest _ _ _ _ _ _
            hmem).2
  · unfold mkPayload
    rw [if_neg (by omega)]

/-- Witness for C8: content of length exactly 1994 is sent inline in a fenced
code block, content of length 1995 as a `content.log` file attachment, and
the single POST for content `x` carries the inline payload. -/
theorem transmit_payload_shape_witness :
    mkPayload (String.mk (List.replicate 1994 'a')) =
      Payload.inline ("```" ++ String.mk (List.replicate 1994 'a') ++ "```") ∧
    mkPayload (String.mk (List.replicate 1995 'a')) =
      Payload.file "content.log" (String.mk (List.replicate 1995 'a')) ∧
    mkPayload "x" = Payload.inline "```x```" :=
  ⟨(transmit_payload_shape (mkHandler String "u" 1 (5:ℤ))
      (String.mk (List.replicate 1994 'a'))
      (by
        intro hcon
        have hlen := congrArg List.length (congrArg String.data hcon)
        rw [List.length_replicate] at hlen
        simp at hlen)
      []).2.1
      (by
        have hl : (String.mk (List.replicate 1994 'a')).length = 1994 :=
          List.length_replicate _ _
        rw [hl]),
   (transmit_payload_shape (mkHandler String "u" 1 (5:ℤ))
      (String.mk (List.replicate 1995 'a'))
      (by
        intro hcon
        have hlen := congrArg List.length (congrArg String.data hcon)
        rw [List.length_replicate] at hlen
        simp at hlen)
      []).2.2
      (by
        have hl : (String.mk (List.replicate 1995 'a')).length = 1995 :=
          List.length_replicate _ _
        rw [hl]
        decide),
   (transmit_payload_shape (mkHandler String "u" 1 (5:ℤ)) "x" (by decide)
      []).2.1 (by decide)⟩

/-- C5: when a retryable response (429/502) arrives and the elapsed time plus
the advised delay would exceed the timeout budget, transmit returns the soft
failure immediately, performing neither that sleep nor any further POST; and
every sleep any `post_webhook` run performs completes within the budget. -/
theorem retry_budget_abort (h : Handler T R) (p : Payload) (elapsed : T)
    (status : Nat) (hdr : RetryAfterHeader T) (env : List (Attempt T)) (d : T)
    (hs : status = 429 ∨ status = 502)
    (hfl : floatOfHeader hdr = Except.ok d) (hb : elapsed + d > h.timeout) :
    retryLoop h p elapsed status hdr env = (TransmitResult.failed, []) ∧
    ∀ (content : String) (env2 : List (Attempt T)),
      sleepsWithin h.timeout 0 (post_webhook h content env2).actions = true :=
  ⟨retryLoop_stop h p elapsed status hdr env _
      (decideResp_budget h.timeout elapsed status hdr d hs hfl hb),
    fun content env2 => post_webhook_sleeps_bounded h content env2⟩

/-- Witness for C5: a 429 at elapsed time 5 advising a delay of 1 against
budget 5 fails with no sleep and no POST, and a run that sleeps once stays
within the budget. -/
theorem retry_budget_abort_witness :
    retryLoop (mkHandler String "u" 1 (5:ℤ)) (Payload.inline "x") 5 429
        (RetryAfterHeader.parseable 1) [Attempt.server 0 204 .missing] =
      (TransmitResult.failed, []) ∧
    sleepsWithin (5:ℤ) 0
      (post_webhook (mkHandler String "u" 1 (5:ℤ)) "x"
        [Attempt.server 0 429 (RetryAfterHeader.parseable 1),
          Attempt.server 1 204 .missing]).actions = true :=
  ⟨(retry_budget_abort (mkHandler String "u" 1 (5:ℤ)) (Payload.inline "x") 5
      429 (RetryAfterHeader.parseable 1) [Attempt.server 0 204 .missing] 1
      (by decide) (by rfl) (by decide)).1,
   (retry_budget_abort (mkHandler String "u" 1 (5:ℤ)) (Payload.inline "x") 5
      429 (RetryAfterHeader.parseable 1) [Attempt.server 0 204 .missing] 1
      (by decide) (by rfl) (by decide)).2 "x"
     [Attempt.server 0 429 (RetryAfterHeader.parseable 1),
       Attempt.server 1 204 .missing]⟩

/-- Counterexample to C7: a 429 response whose `x-ratelimit-reset-after`
header is present but unparseable does not fall back to the 2.0-second
default — `float(...)` raises `ValueError` out of transmit, with no sleep at
all, even though a success was available on retry. -/
theorem unparseable_header_counterexample :
    retryLoop (mkHandler String "u" 1 (5:ℤ)) (Payload.inline "x") 0 429
        RetryAfterHeader.unparseable [Attempt.server 0 204 .missing] =
      (TransmitResult.valueError, []) ∧
    TransmitResult.valueError ≠ TransmitResult.failed ∧
    Action.sleep 2 ∉
      (retryLoop (mkHandler String "u" 1 (5:ℤ)) (Payload.inline "x") 0 429
        RetryAfterHeader.unparseable [Attempt.server 0 204 .missing]).2 :=
  ⟨by decide, by decide, by decide⟩

/-- C7 amended: on a 429/502 the retry delay equals the header value read as
a float when the header is present and parseable, and equals 2.0 when the
header is missing; but a present, unparseable header value makes transmit
raise `ValueError` (no sleep, no default) rather than using 2.0. -/
theorem rate_limit_delay_semantics :
    (∀ (v : T), floatOfHeader (RetryAfterHeader.parseable v) = Except.ok v) ∧
    floatOfHeader (RetryAfterHeader.missing (T := T)) = Except.ok 2 ∧
    (∀ (h : Handler T R) (p : Payload) (elapsed : T) (status : Nat)
        (env : List (Attempt T)), status = 429 ∨ status = 502 →
      retryLoop h p elapsed status RetryAfterHeader.unparseable env =
        (TransmitResult.valueError, [])) ∧
    (∀ (h : Handler T R) (p : Payload) (elapsed : T) (status : Nat)
        (hdr : RetryAfterHeader T) (env : List (Attempt T)) (d : T),
      status = 429 ∨ status = 502 → floatOfHeader hdr = Except.ok d →
      ¬ elapsed + d > h.timeout →
      ∃ tail, (retryLoop h p elapsed status hdr env).2 =
        Action.sleep d :: tail) := by
  refine ⟨fun v => rfl, rfl, ?_, ?_⟩
  · intro h p elapsed status env hs
    refine retryLoop_stop h p elapsed status _ env _ ?_
    have h204 : status ≠ 204 := by rcases hs with h' | h' <;> simp [h']
    simp [decideResp, h204, hs, floatOfHeader]
  · intro h p elapsed status hdr env d hs hfl hnb
    have hdec := decideResp_retry h.timeout elapsed status hdr d hs hfl hnb
    unfold retryLoop
    rw [hdec]
    cases env with
    | nil => exact ⟨[], rfl⟩
    | cons a rest => cases a <;> exact ⟨_, rfl⟩

/-- Witness for C7 amended: a parseable header value 3 is used as the delay,
a missing header defaults to 2, and an unparseable header raises. -/
theorem rate_limit_delay_semantics_witness :
    floatOfHeader (RetryAfterHeader.parseable (3:ℤ)) = Except.ok 3 ∧
    floatOfHeader (RetryAfterHeader.missing (T := ℤ)) = Except.ok 2 ∧
    retryLoop (mkHandler String "u" 1 (5:ℤ)) (Payload.inline "x") 0 429
        RetryAfterHeader.unparseable [] = (TransmitResult.valueError, []) ∧
    (∃ tail,
      (retryLoop (mkHandler String "u" 1 (5:ℤ)) (Payload.inline "x") 0 502
        (RetryAfterHeader.parseable 3) []).2 = Action.sleep 3 :: tail) :=
  ⟨(rate_limit_delay_semantics (R := String)).1 3,
   (rate_limit_delay_semantics (R := String)).2.1,
   (rate_limit_delay_semantics (R := String)).2.2.1
     (mkHandler String "u" 1 (5:ℤ)) (Payload.inline "x") 0 429 []
     (by decide),
   (rate_limit_delay_semantics (R := String)).2.2.2
     (mkHandler String "u" 1 (5:ℤ)) (Payload.inline "x") 0 502
     (RetryAfterHeader.parseable 3) [] 3 (by decide) (by rfl) (by decide)⟩

/-- Helper for C4: accumulator-general form of the delivery invariant.  On
every error-free run, the records accumulated as delivered plus the final
queue account exactly, in order, for the initial queue and all submissions. -/
theorem runOps_invariant (fmt : R → String) :
    ∀ (ops : List (Op T R)) (h : Handler T R) (acc : List R)
      (h1 : Handler T R) (dl : List R),
      runOps fmt h acc ops = (h1, dl, none) →
      acc ++ h.queue ++ submittedOf ops = dl ++ h1.queue := by
  intro ops
  induction ops with
  | nil =>
    intro h acc h1 dl hrun
    simp [runOps] at hrun
    rw [hrun.1, hrun.2]
    simp [submittedOf]
  | cons op rest ih =>
    intro h acc h1 dl hrun
    cases op with
    | submit r now env =>
      by_cases hlt : h.last_emit + h.interval > now
      · simp only [runOps, emit, if_pos hlt] at hrun
        have := ih _ _ _ _ hrun
        simp only [submittedOf]
        simp at this ⊢
        simpa using this
      · cases hres : (post_webhook h (queueContent fmt h ++ "\n" ++ fmt r)
            env).result with
        | ok =>
          simp only [runOps, emit, if_neg hlt, hres,
            post_webhook_state] at hrun
          have := ih _ _ _ _ hrun
          simp only [submittedOf]
          simp at this ⊢
          simpa using this
        | failed =>
          simp only [runOps, emit, if_neg hlt, hres,
            post_webhook_state] at hrun
          have := ih _ _ _ _ hrun
          simp only [submittedOf]
          simp at this ⊢
          simpa using this
        | httpError s =>
          simp [runOps, emit, if_neg hlt, hres] at hrun
        | valueError =>
          simp [runOps, emit, if_neg hlt, hres] at hrun
        | blocked =>
          simp [runOps, emit, if_neg hlt, hres] at hrun
    | force_flush env =>
      cases hres : (post_webhook h (queueContent fmt h) env).result with
      | ok =>
        simp only [runOps, flush, hres, post_webhook_state] at hrun
        have := ih _ _ _ _ hrun
        simp only [submittedOf]
        simp at this ⊢
        simpa using this
      | failed =>
        simp only [runOps, flush, hres, post_webhook_state] at hrun
        have := ih _ _ _ _ hrun
        simp only [submittedOf]
        simp at this ⊢
        simpa using this
      | httpError s => simp [runOps, flush, hres] at hrun
      | valueError => simp [runOps, flush, hres] at hrun
      | blocked => simp [runOps, flush, hres] at hrun

/-- Counterexample to C4: when transmit raises a fatal `HTTPError` during a
submit, the newly submitted entry is dropped without ever having been
successfully transmitted — after submitting `x` into an empty-queue sink and
receiving a 404, the run raised, nothing was delivered, and the queue does
not contain `x`. -/
theorem queue_invariant_counterexample :
    runOps id (mkHandler String "u" 1 (5:ℤ)) []
        [Op.submit "x" 10 [Attempt.server 0 404 .missing]] =
      (mkHandler String "u" 1 (5:ℤ), [], some (PyError.httpError 404)) ∧
    submittedOf [Op.submit "x" 10
        ([Attempt.server 0 404 .missing] : List (Attempt ℤ))] = ["x"] ∧
    "x" ∉ (mkHandler String "u" 1 (5:ℤ)).queue :=
  ⟨by decide, by decide, by decide⟩

/-- C4 amended: over every sequence of submit and force_flush operations in
which transmit returns (success or failure) rather than raising, entries are
removed from the queue only by a success-reporting flush: the initial queue
followed by all submitted entries equals, in order, the delivered entries
followed by the final queue.  (When transmit raises a fatal error during a
submit, previously queued entries are preserved but the newly submitted entry
is dropped, as the counterexample shows.) -/
theorem no_entry_dropped_without_delivery (fmt : R → String)
    (h0 : Handler T R) (ops : List (Op T R)) (h1 : Handler T R)
    (delivered : List R)
    (hrun : runOps fmt h0 [] ops = (h1, delivered, none)) :
    h0.queue ++ submittedOf ops = delivered ++ h1.queue := by
  simpa using runOps_invariant fmt ops h0 [] h1 delivered hrun

/-- Witness for C4 amended: a run with an intra-interval submit, a failed
flush, a successful force_flush and a final successful submit delivers
`a`, `b`, `c` and ends with an empty queue. -/
theorem no_entry_dropped_without_delivery_witness :
    (mkHandler String "u" 1 (5:ℤ)).queue ++
        submittedOf
          [Op.submit "a" 0 [],
            Op.submit "b" 5 [Attempt.netFail 0],
            Op.force_flush [Attempt.server 0 204 .missing],
            Op.submit "c" 6 [Attempt.server 0 204 .missing]] =
      ["a", "b", "c"] ++ (⟨"u", 1, 5, 6, []⟩ : Handler ℤ String).queue :=
  no_entry_dropped_without_delivery id (mkHandler String "u" 1 (5:ℤ))
    [Op.submit "a" 0 [],
      Op.submit "b" 5 [Attempt.netFail 0],
      Op.force_flush [Attempt.server 0 204 .missing],
      Op.submit "c" 6 [Attempt.server 0 204 .missing]]
    ⟨"u", 1, 5, 6, []⟩ ["a", "b", "c"] (by decide)

/-- Helper for C10: the retry loop's outcome and trace depend on the handler
only through its `url` and `timeout` fields. -/
theorem retryLoop_read_set (h h2 : Handler T R) (p : Payload)
    (hurl : h.url = h2.url) (htimeout : h.timeout = h2.timeout)
    (env : List (Attempt T)) :
    ∀ (elapsed : T) (status : Nat) (hdr : RetryAfterHeader T),
      retryLoop h p elapsed status hdr env =
        retryLoop h2 p elapsed status hdr env := by
  induction env with
  | nil =>
    intro elapsed status hdr
    unfold retryLoop
    rw [htimeout]
    cases hdec : decideResp h2.timeout elapsed status hdr with
    | stop r => rfl
    | retryAfter d => rfl
  | cons a rest ih =>
    intro elapsed status hdr
    unfold retryLoop
    rw [htimeout]
    cases hdec : decideResp h2.timeout elapsed status hdr with
    | stop r => rfl
    | retryAfter d =>
      cases a with
      | netFail delta => simp [hurl]
      | server delta status2 hdr2 => simp [hurl, ih]

/-- Counterexample to C10: transmit does read the sink's `timeout` field —
two sinks identical except for `timeout` produce different transmit outcomes
on the same content and the same responses (429 advising a 1-second delay,
then 204). -/
theorem transmit_reads_timeout_counterexample :
    (post_webhook (mkHandler String "u" 1 (5:ℤ)) "x"
        [Attempt.server 0 429 (RetryAfterHeader.parseable 1),
          Attempt.server 0 204 .missing]).result = TransmitResult.ok ∧
    (post_webhook { mkHandler String "u" 1 (5:ℤ) with timeout := 0 } "x"
        [Attempt.server 0 429 (RetryAfterHeader.parseable 1),
          Attempt.server 0 204 .missing]).result = TransmitResult.failed ∧
    TransmitResult.ok ≠ TransmitResult.failed :=
  ⟨by decide, by decide, by decide⟩

/-- C10 amended: transmit (`post_webhook`) never modifies any sink field —
the handler state after the call equals the state before it, for every
content string and every transport outcome — and its result and network
actions depend on the sink state only through the `url` and `timeout` fields
it reads (never through `queue`, `last_emit` or `interval`). -/
theorem transmit_frame_and_read_set (h h2 : Handler T R) (content : String)
    (env : List (Attempt T)) (hurl : h.url = h2.url)
    (htimeout : h.timeout = h2.timeout) :
    (post_webhook h content env).state = h ∧
    (post_webhook h content env).result =
      (post_webhook h2 content env).result ∧
    (post_webhook h content env).actions =
      (post_webhook h2 content env).actions := by
  refine ⟨post_webhook_state h content env, ?_, ?_⟩ <;>
  · by_cases hc : content = ""
    · simp [post_webhook, hc]
    · cases env with
      | nil => simp [post_webhook, hc]
      | cons a rest =>
        cases a with
        | netFail delta => simp [post_webhook, hc, hurl]
        | server delta status hdr =>
          simp [post_webhook, hc, hurl,
            retryLoop_read_set h h2 (mkPayload content) hurl htimeout rest]

/-- Witness for C10 amended: two sinks sharing `url` and `timeout` but
differing in queue, `last_emit` and interval get the same transmit result and
actions, and the state is returned unchanged. -/
theorem transmit_frame_and_read_set_witness :
    (post_webhook (mkHandler String "u" 1 (5:ℤ)) "x"
        [Attempt.server 0 429 (RetryAfterHeader.parseable 1),
          Attempt.server 0 204 .missing]).state =
      mkHandler String "u" 1 (5:ℤ) ∧
    (post_webhook (mkHandler String "u" 1 (5:ℤ)) "x"
        [Attempt.server 0 429 (RetryAfterHeader.parseable 1),
          Attempt.server 0 204 .missing]).result =
      (post_webhook (⟨"u", 7, 5, 9, ["q"]⟩ : Handler ℤ String) "x"
        [Attempt.server 0 429 (RetryAfterHeader.parseable 1),
          Attempt.server 0 204 .missing]).result ∧
    (post_webhook (mkHandler String "u" 1 (5:ℤ)) "x"
        [Attempt.server 0 429 (RetryAfterHeader.parseable 1),
          Attempt.server 0 204 .missing]).actions =
      (post_webhook (⟨"u", 7, 5, 9, ["q"]⟩ : Handler ℤ String) "x"
        [Attempt.server 0 429 (RetryAfterHeader.parseable 1),
          Attempt.server 0 204 .missing]).actions :=
  transmit_frame_and_read_set (mkHandler String "u" 1 (5:ℤ))
    (⟨"u", 7, 5, 9, ["q"]⟩ : Handler ℤ String) "x"
    [Attempt.server 0 429 (RetryAfterHeader.parseable 1),
      Attempt.server 0 204 .missing] (by decide) (by decide)

end DiscordLogging
